import Mathlib

/-!
Shallow embedding of the mailbox messaging core of the repository:
`vm/src/mailbox.rs` (the `Mailbox` struct and its operations) and
`src/object_header.rs` (the `ObjectHeader` struct), together with the
object-copying allocator interface the mailbox depends on.

Modelling choices:
* An `ObjectPointer` is modelled as a heap id (which process heap / mailbox
  region the object lives in), an address within that heap, and a structural
  payload `val`.  Pointer identity is equality of the whole structure;
  structural equality is equality of `val`.
* The per-mailbox `MailboxAllocator` is modelled by the mailbox's own heap id
  `heapId` together with a fresh-address counter `nextAddr`: every allocation
  made by this mailbox produces an address below the current counter, within
  the mailbox's own region.
* The `parking_lot::Mutex` write lock has no observable state in a sequential
  embedding.  Lock acquisition and release, copying, appending and the
  individual pop/drain steps of each operation are recorded as an explicit
  event trace by the `_tr` variants of the operations, which mirror the same
  source bodies statement by statement.
* `VecDeque` is modelled as a `List` with `push_back` appending at the end and
  `pop_front` taking the head; `internal.append(external.drain(0..).collect())`
  becomes appending the whole `external` list to the back of `internal` and
  emptying `external`.
-/

namespace Inko

/-- Model of `object_pointer::ObjectPointer`: a cheap-to-copy reference to a
heap-resident object, identified by the heap it lives in and its address
there, carrying a structural payload. -/
structure ObjectPointer where
  heap : Nat
  addr : Nat
  val : Nat
deriving DecidableEq, Repr

/-- Model of `vm/src/mailbox.rs` `Mailbox`: the three message queues plus the
allocator state.  The `write_lock : Mutex<()>` field has no sequential state;
its acquisitions are recorded in the event traces of the `_tr` operations. -/
structure Mailbox where
  external : List ObjectPointer
  internal : List ObjectPointer
  locals : List ObjectPointer
  heapId : Nat
  nextAddr : Nat
deriving DecidableEq, Repr

/-- Model of `Mailbox::new`: all three queues empty, a fresh allocator for the
mailbox's own region. -/
def Mailbox.new (hid : Nat) : Mailbox :=
  { external := [], internal := [], locals := [], heapId := hid, nextAddr := 0 }

/-- Modelled from the spec: `MailboxAllocator::copy_object` (from
`immix::copy_object::CopyObject`, not under `src/`).  Per the spec of the
Mailbox Allocator / Object Copier, the result is structurally equal to the
source at the moment of the copy and shares no storage with it: the copy is
materialized inside the mailbox's own region, at a fresh address. -/
def Mailbox.copy_object (m : Mailbox) (original : ObjectPointer) : ObjectPointer :=
  { heap := m.heapId, addr := m.nextAddr, val := original.val }

/-- Model of `Mailbox::send_from_external`: acquire the write lock, copy the
original into the mailbox's own region, push the copy onto the back of
`external`, release the lock.  The allocation consumes one fresh address. -/
def Mailbox.send_from_external (m : Mailbox) (original : ObjectPointer) : Mailbox :=
  { m with
    external := m.external ++ [m.copy_object original],
    nextAddr := m.nextAddr + 1 }

/-- Model of `Mailbox::send_from_self`: push the pointer itself onto the back
of `locals`; no lock, no copy, no allocation. -/
def Mailbox.send_from_self (m : Mailbox) (pointer : ObjectPointer) : Mailbox :=
  { m with locals := m.locals ++ [pointer] }

/-- Model of `Mailbox::receive`: pop the front of `locals` if possible;
otherwise, if `internal` is empty, bulk-move the whole contents of `external`
onto the back of `internal` (under the lock) and finally pop the front of
`internal`. -/
def Mailbox.receive (m : Mailbox) : Option ObjectPointer × Mailbox :=
  match m.locals with
  | pointer :: rest => (some pointer, { m with locals := rest })
  | [] =>
    let m' :=
      if m.internal.length == 0 then
        { m with internal := m.internal ++ m.external, external := [] }
      else
        m
    match m'.internal with
    | q :: qs => (some q, { m' with internal := qs })
    | [] => (none, m')

/-- Model of `Mailbox::has_local_pointers`. -/
def Mailbox.has_local_pointers (m : Mailbox) : Bool :=
  m.locals.length > 0

/-- Model of `gc::work_list::WorkList`: an ordered sequence of object
pointers used purely as a transport for root sets. -/
abbrev WorkList := List ObjectPointer

/-- Model of `WorkList::new`. -/
def WorkList.new : WorkList := []

/-- Model of `WorkList::push`: append at the back. -/
def WorkList.push (w : WorkList) (p : ObjectPointer) : WorkList :=
  w ++ [p]

/-- Model of `Mailbox::mailbox_pointers`: push every pointer of `internal`
then of `external`, in queue order, onto a fresh work list.  The
`pointer.pointer()` indirection of the source (from `object_pointer.rs`, not
under `src/`) is modelled from the spec as the pointer itself: the spec calls
this a non-destructive snapshot of every pointer currently in `external` and
`internal`. -/
def Mailbox.mailbox_pointers (m : Mailbox) : WorkList :=
  (m.internal ++ m.external).foldl WorkList.push WorkList.new

/-- Model of `Mailbox::local_pointers`: push every pointer of `locals`, in
queue order, onto a fresh work list. -/
def Mailbox.local_pointers (m : Mailbox) : WorkList :=
  m.locals.foldl WorkList.push WorkList.new

/-- Model of `Mailbox::has_messages`: true if `locals` or `internal` is
non-empty, otherwise check `external` under the lock. -/
def Mailbox.has_messages (m : Mailbox) : Bool :=
  if m.locals.length > 0 || m.internal.length > 0 then
    true
  else
    m.external.length > 0

/-- The observable events of a mailbox operation, used to reason about the
span during which the write lock is held. -/
inductive Event where
  | lockAcquire
  | lockRelease
  | copyObj
  | appendExternal
  | bulkDrain
  | popLocals
  | popInternal
deriving DecidableEq, Repr

/-- `Mailbox::send_from_external` with its event trace: the source body is
straight-line code that acquires the lock, evaluates `copy_object`, pushes the
copy onto `external`, and releases the lock when the guard is dropped at the
end of the function. -/
def Mailbox.send_from_external_tr (m : Mailbox) (original : ObjectPointer) :
    Mailbox × List Event :=
  (m.send_from_external original,
    [Event.lockAcquire, Event.copyObj, Event.appendExternal, Event.lockRelease])

/-- `Mailbox::receive` with its event trace.  The lock is acquired exactly in
the branch where `locals` yields nothing and `internal` is empty, around the
bulk drain of `external`. -/
def Mailbox.receive_tr (m : Mailbox) : Option ObjectPointer × Mailbox × List Event :=
  match m.locals with
  | pointer :: rest => (some pointer, { m with locals := rest }, [Event.popLocals])
  | [] =>
    if m.internal.length == 0 then
      let m' := { m with internal := m.internal ++ m.external, external := [] }
      (m'.internal.head?, { m' with internal := m'.internal.tail },
        [Event.lockAcquire, Event.bulkDrain, Event.lockRelease, Event.popInternal])
    else
      (m.internal.head?, { m with internal := m.internal.tail }, [Event.popInternal])

/-- Whether every `copyObj` event of a trace happens at lock depth zero, i.e.
outside any span between a lock acquisition and its release.  `d` is the
number of currently held acquisitions. -/
def copyOutsideLockAux : Nat → List Event → Bool
  | _, [] => true
  | d, Event.lockAcquire :: rest => copyOutsideLockAux (d + 1) rest
  | d, Event.lockRelease :: rest => copyOutsideLockAux (d - 1) rest
  | d, Event.copyObj :: rest => d == 0 && copyOutsideLockAux d rest
  | d, _ :: rest => copyOutsideLockAux d rest

/-- A trace performs every object copy outside the lock span. -/
def copyOutsideLock (tr : List Event) : Bool :=
  copyOutsideLockAux 0 tr

/-- Iterated `receive_tr`: final mailbox state and the concatenation of the
event traces of the successive `receive` calls. -/
def Mailbox.receive_tr_n : Nat → Mailbox → Mailbox × List Event
  | 0, m => (m, [])
  | k + 1, m =>
    let r := m.receive_tr
    let rest := Mailbox.receive_tr_n k r.2.1
    (rest.1, r.2.2 ++ rest.2)

/-- Iterated `send_from_external` over a list of originals, in order. -/
def Mailbox.send_all (m : Mailbox) (ps : List ObjectPointer) : Mailbox :=
  ps.foldl Mailbox.send_from_external m

/-- The copies that a run of external sends starting at fresh-address `na`
produces for the originals `ps`, in send order. -/
def copies_from (hid na : Nat) : List ObjectPointer → List ObjectPointer
  | [] => []
  | p :: ps => { heap := hid, addr := na, val := p.val } :: copies_from hid (na + 1) ps

/-- The mailbox states reachable from a fresh mailbox by any sequence of
sends and receives.  External senders are other processes, so the original
pointers they pass live in a heap different from this mailbox's region. -/
inductive Reachable : Mailbox → Prop where
  | new (hid : Nat) : Reachable (Mailbox.new hid)
  | send_ext {m : Mailbox} (p : ObjectPointer) (hm : Reachable m)
      (hp : p.heap ≠ m.heapId) : Reachable (m.send_from_external p)
  | send_self {m : Mailbox} (p : ObjectPointer) (hm : Reachable m) :
      Reachable (m.send_from_self p)
  | recv {m : Mailbox} (hm : Reachable m) : Reachable m.receive.2

/-- The isolation invariant of §3: every pointer visible through `external`
or `internal` lives in the mailbox's own region, at an address its allocator
has already handed out. -/
def Mailbox.copies_only (m : Mailbox) : Bool :=
  (m.external ++ m.internal).all fun q => q.heap == m.heapId && q.addr < m.nextAddr

/-- Model of `src/object_header.rs` `ObjectHeader`.  The three `HashMap`s of
identifier to `RcObject` are modelled as association lists (the claims only
inspect emptiness and preservation). -/
structure ObjectHeader where
  name : Option String
  attributes : List (String × Nat)
  constants : List (String × Nat)
  methods : List (String × Nat)
  pinned : Bool
  truthy : Bool
deriving DecidableEq, Repr

/-- Model of `ObjectHeader::new`. -/
def ObjectHeader.new : ObjectHeader :=
  { name := none, attributes := [], constants := [], methods := [],
    pinned := false, truthy := true }

/-- Model of `ObjectHeader::set_falsy`. -/
def ObjectHeader.set_falsy (h : ObjectHeader) : ObjectHeader :=
  { h with truthy := false }

/-! ## Helper lemmas -/

theorem worklist_push_foldl (l : List ObjectPointer) (w : WorkList) :
    l.foldl WorkList.push w = w ++ l := by
  induction l generalizing w with
  | nil => simp
  | cons p ps ih =>
    simp only [List.foldl_cons, ih]
    simp [WorkList.push]

theorem mailbox_pointers_eq (m : Mailbox) :
    m.mailbox_pointers = m.internal ++ m.external := by
  simp [Mailbox.mailbox_pointers, worklist_push_foldl, WorkList.new]

theorem local_pointers_eq (m : Mailbox) :
    m.local_pointers = m.locals := by
  simp [Mailbox.local_pointers, worklist_push_foldl, WorkList.new]

/-! ## Claims -/

/-- Claim C9: a fresh `ObjectHeader` has no name, the three identifier maps
empty, `pinned = false` and `truthy = true`; `set_falsy` sets `truthy` to
false, leaves every other field unchanged, and is idempotent. -/
theorem object_header_new_and_set_falsy :
    ObjectHeader.new.name = none ∧
    ObjectHeader.new.attributes = [] ∧
    ObjectHeader.new.constants = [] ∧
    ObjectHeader.new.methods = [] ∧
    ObjectHeader.new.pinned = false ∧
    ObjectHeader.new.truthy = true ∧
    (∀ h : ObjectHeader,
      h.set_falsy.truthy = false ∧
      h.set_falsy.name = h.name ∧
      h.set_falsy.attributes = h.attributes ∧
      h.set_falsy.constants = h.constants ∧
      h.set_falsy.methods = h.methods ∧
      h.set_falsy.pinned = h.pinned ∧
      h.set_falsy.set_falsy = h.set_falsy) := by
  refine ⟨rfl, rfl, rfl, rfl, rfl, rfl, fun h => ?_⟩
  exact ⟨rfl, rfl, rfl, rfl, rfl, rfl, rfl⟩

/-- Claim C4: `has_messages` returns false if and only if all three queues
are empty. -/
theorem has_messages_iff_all_empty (m : Mailbox) :
    m.has_messages = false ↔ (m.locals = [] ∧ m.internal = [] ∧ m.external = []) := by
  cases hl : m.locals <;> cases hi : m.internal <;> cases he : m.external <;>
    simp [Mailbox.has_messages, hl, hi, he]

theorem copy_ne_of_heap_ne {hid na v : Nat} {p : ObjectPointer} (hp : p.heap ≠ hid) :
    ({ heap := hid, addr := na, val := v } : ObjectPointer) ≠ p :=
  fun h => hp (by rw [← h])

/-- Claim C1: `receive` pops the front of `locals` whenever it is non-empty;
otherwise, when `internal` is empty, it bulk-moves the entire contents of
`external` into `internal` preserving their relative order and pops the new
front; when `internal` is non-empty it pops its front without touching
`external`; and it returns `none` exactly when all three queues are empty.
In particular `locals` is always exhausted before anything from `internal`
or `external` is returned. -/
theorem receive_algorithm (e i l : List ObjectPointer) (p : ObjectPointer)
    (hid na : Nat) :
    (Mailbox.receive ⟨e, i, p :: l, hid, na⟩ = (some p, ⟨e, i, l, hid, na⟩)) ∧
    (Mailbox.receive ⟨e, [], [], hid, na⟩ = (e.head?, ⟨[], e.tail, [], hid, na⟩)) ∧
    (Mailbox.receive ⟨e, p :: i, [], hid, na⟩ = (some p, ⟨e, i, [], hid, na⟩)) ∧
    ((Mailbox.receive ⟨e, i, l, hid, na⟩).1 = none ↔ (l = [] ∧ i = [] ∧ e = [])) := by
  refine ⟨rfl, ?_, rfl, ?_⟩
  · cases e <;> rfl
  · cases l with
    | cons p l => simp [Mailbox.receive]
    | nil =>
      cases i with
      | cons q i => simp [Mailbox.receive]
      | nil => cases e <;> simp [Mailbox.receive]

/-- Claim C5 counterexample: on a mailbox whose `locals` queue already holds
a pointer, the receive following `send_from_self A; send_from_self B` returns
that older pointer, not A. -/
theorem send_from_self_fifo_cex :
    (((Mailbox.mk [] [] [⟨0, 0, 3⟩] 0 0).send_from_self ⟨0, 1, 1⟩).send_from_self
        ⟨0, 2, 2⟩).receive.1 ≠ some ⟨0, 1, 1⟩ := by
  decide

/-- Claim C5 (amended): on a mailbox whose `locals` queue is empty, after
`send_from_self A` then `send_from_self B` with no intervening receive, the
next receive returns exactly the pointer A that was sent and the one after
returns exactly B (no copy is made), restoring the original mailbox state. -/
theorem send_from_self_fifo (e i : List ObjectPointer) (hid na : Nat)
    (a b : ObjectPointer) :
    ((Mailbox.mk e i [] hid na).send_from_self a).send_from_self b
        |>.receive.1 = some a ∧
    (((Mailbox.mk e i [] hid na).send_from_self a).send_from_self b
        |>.receive.2.receive.1 = some b) ∧
    (((Mailbox.mk e i [] hid na).send_from_self a).send_from_self b
        |>.receive.2.receive.2 = Mailbox.mk e i [] hid na) := by
  refine ⟨rfl, rfl, rfl⟩

/-- Claim C3 counterexample: a mailbox state reached by self-sending the same
pointer twice holds that pointer twice, so the combined work-list snapshot
contains it more than once. -/
theorem pointers_snapshot_cex :
    Reachable (((Mailbox.new 0).send_from_self ⟨0, 0, 7⟩).send_from_self ⟨0, 0, 7⟩) ∧
    ¬ ((((Mailbox.new 0).send_from_self ⟨0, 0, 7⟩).send_from_self
          ⟨0, 0, 7⟩).mailbox_pointers ++
        (((Mailbox.new 0).send_from_self ⟨0, 0, 7⟩).send_from_self
          ⟨0, 0, 7⟩).local_pointers).Nodup :=
  ⟨Reachable.send_self _ (Reachable.send_self _ (Reachable.new 0)), by decide⟩

/-- Claim C3 (amended): for every mailbox state, `mailbox_pointers()` together
with `local_pointers()` is exactly the multiset of pointers currently enqueued
in `external`, `internal` and `locals` — no pointer omitted, and each pointer
occurring exactly as often as it is enqueued. -/
theorem pointers_snapshot_multiset (m : Mailbox) :
    ((m.mailbox_pointers ++ m.local_pointers : List ObjectPointer) : Multiset ObjectPointer) =
      (m.external : Multiset ObjectPointer) + (m.internal : Multiset ObjectPointer) +
        (m.locals : Multiset ObjectPointer) := by
  rw [mailbox_pointers_eq, local_pointers_eq]
  simp only [← Multiset.coe_add, List.append_assoc]
  rw [add_comm (m.external : Multiset ObjectPointer) (m.internal : Multiset ObjectPointer),
    add_assoc]

/-- Claim C6: on an otherwise-empty mailbox, `send_from_external(P)` followed
by `receive()` returns the copy of P made by the mailbox's own allocator: it
is structurally equal to P (same payload) but not pointer-identical to P, and
it lives in the mailbox's own region, not in P's heap. -/
theorem send_external_receive_copy (hid na : Nat) (p : ObjectPointer)
    (hp : p.heap ≠ hid) :
    ((Mailbox.mk [] [] [] hid na).send_from_external p).receive.1 =
      some ((Mailbox.mk [] [] [] hid na).copy_object p) ∧
    ((Mailbox.mk [] [] [] hid na).copy_object p).val = p.val ∧
    (Mailbox.mk [] [] [] hid na).copy_object p ≠ p ∧
    ((Mailbox.mk [] [] [] hid na).copy_object p).heap ≠ p.heap := by
  refine ⟨rfl, rfl, copy_ne_of_heap_ne hp, ?_⟩
  simpa [Mailbox.copy_object] using fun h => hp h.symm

/-- Witness for C6 at hid = 0, na = 0, P = ⟨1, 5, 42⟩. -/
theorem send_external_receive_copy_w :
    (ObjectPointer.mk 1 5 42).heap ≠ 0 ∧
    (((Mailbox.mk [] [] [] 0 0).send_from_external ⟨1, 5, 42⟩).receive.1 =
        some ((Mailbox.mk [] [] [] 0 0).copy_object ⟨1, 5, 42⟩) ∧
      ((Mailbox.mk [] [] [] 0 0).copy_object ⟨1, 5, 42⟩).val =
        (ObjectPointer.mk 1 5 42).val ∧
      (Mailbox.mk [] [] [] 0 0).copy_object ⟨1, 5, 42⟩ ≠ ⟨1, 5, 42⟩ ∧
      ((Mailbox.mk [] [] [] 0 0).copy_object ⟨1, 5, 42⟩).heap ≠
        (ObjectPointer.mk 1 5 42).heap) :=
  ⟨by decide, send_external_receive_copy 0 0 ⟨1, 5, 42⟩ (by decide)⟩

/-- Claim C2 counterexample: on a concrete mailbox and pointer, the copy event
of `send_from_external` occurs strictly inside the span between the lock
acquisition and its release, so the copy is not produced before or outside
the span in which the lock is held. -/
theorem send_lock_span_cex :
    copyOutsideLock ((Mailbox.new 0).send_from_external_tr ⟨1, 0, 5⟩).2 = false := by
  decide

/-- Claim C2 (amended): during `send_from_external` the write lock is held
for the whole body: the lock is acquired first, then the copy of the argument
object is produced and appended while the lock is held, and the lock is
released last — the lock guards the copy as well as the append. -/
theorem send_lock_span (m : Mailbox) (p : ObjectPointer) :
    (m.send_from_external_tr p).2 =
      [Event.lockAcquire, Event.copyObj, Event.appendExternal, Event.lockRelease] ∧
    copyOutsideLock (m.send_from_external_tr p).2 = false ∧
    (m.send_from_external_tr p).1 = m.send_from_external p :=
  ⟨rfl, rfl, rfl⟩

theorem copies_from_length (hid na : Nat) (ps : List ObjectPointer) :
    (copies_from hid na ps).length = ps.length := by
  induction ps generalizing na with
  | nil => rfl
  | cons p ps ih => simp [copies_from, ih]

theorem send_all_spec (ps : List ObjectPointer) (e i l : List ObjectPointer)
    (hid na : Nat) :
    Mailbox.send_all ⟨e, i, l, hid, na⟩ ps =
      ⟨e ++ copies_from hid na ps, i, l, hid, na + ps.length⟩ := by
  induction ps generalizing e na with
  | nil => simp [Mailbox.send_all, copies_from]
  | cons p ps ih =>
    show Mailbox.send_all (Mailbox.send_from_external ⟨e, i, l, hid, na⟩ p) ps = _
    rw [show Mailbox.send_from_external ⟨e, i, l, hid, na⟩ p =
        ⟨e ++ [{ heap := hid, addr := na, val := p.val }], i, l, hid, na + 1⟩ from rfl]
    rw [ih]
    simp [copies_from, Mailbox.mk.injEq]
    omega

theorem receive_tr_pop_internal (m : Mailbox) (hl : m.locals = [])
    (q : ObjectPointer) (qs : List ObjectPointer) (hi : m.internal = q :: qs) :
    m.receive_tr = (some q, { m with internal := qs }, [Event.popInternal]) := by
  simp [Mailbox.receive_tr, hl, hi]

theorem receive_tr_n_lock_free (k : Nat) :
    ∀ m : Mailbox, m.locals = [] → k ≤ m.internal.length →
      (Mailbox.receive_tr_n k m).2 = List.replicate k Event.popInternal ∧
      (Mailbox.receive_tr_n k m).1.external = m.external ∧
      (Mailbox.receive_tr_n k m).1.locals = [] ∧
      (Mailbox.receive_tr_n k m).1.internal = m.internal.drop k := by
  induction k with
  | zero => intro m hl _; simp [Mailbox.receive_tr_n, hl]
  | succ k ih =>
    intro m hl hk
    cases hi : m.internal with
    | nil => rw [hi] at hk; simp at hk
    | cons q qs =>
      have hr := receive_tr_pop_internal m hl q qs hi
      have hlen : k ≤ qs.length := by
        rw [hi] at hk
        simpa using hk
      obtain ⟨h1, h2, h3, h4⟩ := ih { m with internal := qs } (by simp [hl]) (by simpa)
      refine ⟨?_, ?_, ?_, ?_⟩ <;>
        simp [Mailbox.receive_tr_n, hr, h1, h2, h3, h4, hi, List.replicate_succ]

/-- Claim C7: with `locals` and `internal` empty, after N ≥ 1 external sends
the first `receive` performs exactly one lock-guarded bulk drain, moving all
the freshly made copies into `internal` in send order (behind whatever
`external` already held), and each of the next N−1 `receive` calls emits only
a pop of `internal` — no lock acquisition, no drain — leaving `external`
untouched. -/
theorem receive_batched_drain (e : List ObjectPointer) (hid na : Nat)
    (ps : List ObjectPointer) (hps : ps ≠ []) :
    ((Mailbox.send_all ⟨e, [], [], hid, na⟩ ps).receive_tr.2.2 =
      [Event.lockAcquire, Event.bulkDrain, Event.lockRelease, Event.popInternal]) ∧
    ((Mailbox.send_all ⟨e, [], [], hid, na⟩ ps).receive_tr.1 =
      (e ++ copies_from hid na ps).head?) ∧
    ((Mailbox.send_all ⟨e, [], [], hid, na⟩ ps).receive_tr.2.1.internal =
      (e ++ copies_from hid na ps).tail) ∧
    ((Mailbox.send_all ⟨e, [], [], hid, na⟩ ps).receive_tr.2.1.external = []) ∧
    ((Mailbox.receive_tr_n (ps.length - 1)
        (Mailbox.send_all ⟨e, [], [], hid, na⟩ ps).receive_tr.2.1).2 =
      List.replicate (ps.length - 1) Event.popInternal) ∧
    ((Mailbox.receive_tr_n (ps.length - 1)
        (Mailbox.send_all ⟨e, [], [], hid, na⟩ ps).receive_tr.2.1).1.external = []) := by
  rw [send_all_spec]
  have hstate :
      (Mailbox.mk (e ++ copies_from hid na ps) [] [] hid (na + ps.length)).receive_tr =
        ((e ++ copies_from hid na ps).head?,
          ⟨[], (e ++ copies_from hid na ps).tail, [], hid, na + ps.length⟩,
          [Event.lockAcquire, Event.bulkDrain, Event.lockRelease, Event.popInternal]) := by
    simp [Mailbox.receive_tr]
  rw [hstate]
  have hlen : ps.length - 1 ≤ ((e ++ copies_from hid na ps).tail).length := by
    have h1 := copies_from_length hid na ps
    have h2 : ps.length ≥ 1 := by
      cases ps with
      | nil => exact absurd rfl hps
      | cons p ps => simp
    simp [List.length_tail]
    omega
  obtain ⟨h1, h2, h3, h4⟩ :=
    receive_tr_n_lock_free (ps.length - 1)
      ⟨[], (e ++ copies_from hid na ps).tail, [], hid, na + ps.length⟩ rfl hlen
  exact ⟨rfl, rfl, rfl, rfl, h1, h2⟩

/-- Witness for C7 at e = [], hid = 0, na = 0, ps = [⟨1, 0, 5⟩]. -/
theorem receive_batched_drain_w :
    ([(⟨1, 0, 5⟩ : ObjectPointer)] ≠ []) ∧
    (((Mailbox.send_all ⟨[], [], [], 0, 0⟩ [⟨1, 0, 5⟩]).receive_tr.2.2 =
        [Event.lockAcquire, Event.bulkDrain, Event.lockRelease, Event.popInternal]) ∧
      ((Mailbox.send_all ⟨[], [], [], 0, 0⟩ [⟨1, 0, 5⟩]).receive_tr.1 =
        ([] ++ copies_from 0 0 [⟨1, 0, 5⟩]).head?) ∧
      ((Mailbox.send_all ⟨[], [], [], 0, 0⟩ [⟨1, 0, 5⟩]).receive_tr.2.1.internal =
        ([] ++ copies_from 0 0 [⟨1, 0, 5⟩]).tail) ∧
      ((Mailbox.send_all ⟨[], [], [], 0, 0⟩ [⟨1, 0, 5⟩]).receive_tr.2.1.external = []) ∧
      ((Mailbox.receive_tr_n ([(⟨1, 0, 5⟩ : ObjectPointer)].length - 1)
          (Mailbox.send_all ⟨[], [], [], 0, 0⟩ [⟨1, 0, 5⟩]).receive_tr.2.1).2 =
        List.replicate ([(⟨1, 0, 5⟩ : ObjectPointer)].length - 1) Event.popInternal) ∧
      ((Mailbox.receive_tr_n ([(⟨1, 0, 5⟩ : ObjectPointer)].length - 1)
          (Mailbox.send_all ⟨[], [], [], 0, 0⟩ [⟨1, 0, 5⟩]).receive_tr.2.1).1.external =
        [])) :=
  ⟨by decide, receive_batched_drain [] 0 0 [⟨1, 0, 5⟩] (by decide)⟩


theorem copies_only_iff (m : Mailbox) :
    m.copies_only = true ↔
      ∀ q ∈ m.external ++ m.internal, q.heap = m.heapId ∧ q.addr < m.nextAddr := by
  simp only [Mailbox.copies_only, List.all_eq_true, List.mem_append, or_imp,
    forall_and, Bool.and_eq_true, beq_iff_eq, decide_eq_true_eq]

theorem receive_snd_pop_locals (m : Mailbox) (p : ObjectPointer)
    (rest : List ObjectPointer) (hl : m.locals = p :: rest) :
    m.receive.2 = { m with locals := rest } := by
  simp [Mailbox.receive, hl]

theorem receive_snd_pop_internal (m : Mailbox) (hl : m.locals = [])
    (q : ObjectPointer) (qs : List ObjectPointer) (hi : m.internal = q :: qs) :
    m.receive.2 = { m with internal := qs } := by
  simp [Mailbox.receive, hl, hi]

theorem receive_snd_drain (m : Mailbox) (hl : m.locals = []) (hi : m.internal = []) :
    m.receive.2 = { m with internal := m.external.tail, external := [] } := by
  cases he : m.external <;> simp [Mailbox.receive, hl, hi, he]

/-- Claim C8: in every reachable mailbox state, every pointer held in
`external` or `internal` lives in this mailbox's own region at an address its
allocator has already handed out — a private copy made by `copy_object` —
and `copy_object` never returns a sender's original pointer (the original
lives in another heap).  `locals` is unconstrained: it holds exactly what the
owning process enqueued without copying. -/
theorem external_internal_copies_only (m : Mailbox) (hm : Reachable m) :
    m.copies_only = true ∧
    ∀ p : ObjectPointer, p.heap ≠ m.heapId → m.copy_object p ≠ p := by
  refine ⟨?_, fun p hp => copy_ne_of_heap_ne hp⟩
  induction hm with
  | new hid => rfl
  | send_ext p hm hp ih =>
    rw [copies_only_iff] at ih ⊢
    intro q hq
    simp only [Mailbox.send_from_external, Mailbox.copy_object, List.mem_append,
      List.mem_singleton] at hq
    rcases hq with (hq | hq) | hq
    · have := ih q (List.mem_append.mpr (Or.inl hq))
      exact ⟨this.1, Nat.lt_succ_of_lt this.2⟩
    · subst hq
      exact ⟨rfl, Nat.lt_succ_self _⟩
    · have := ih q (List.mem_append.mpr (Or.inr hq))
      exact ⟨this.1, Nat.lt_succ_of_lt this.2⟩
  | send_self p hm ih =>
    simpa [Mailbox.copies_only, Mailbox.send_from_self] using ih
  | recv hm ih =>
    rename_i m'
    rw [copies_only_iff] at ih ⊢
    cases hl : m'.locals with
    | cons p rest =>
      rw [receive_snd_pop_locals m' p rest hl]
      intro q hq
      exact ih q hq
    | nil =>
      cases hi : m'.internal with
      | cons r rs =>
        rw [receive_snd_pop_internal m' hl r rs hi]
        intro q hq
        have hq' : q ∈ m'.external ++ m'.internal := by
          rw [hi]
          rcases List.mem_append.mp hq with h | h
          · exact List.mem_append.mpr (Or.inl h)
          · exact List.mem_append.mpr (Or.inr (List.mem_cons_of_mem r h))
        exact ih q hq'
      | nil =>
        rw [receive_snd_drain m' hl hi]
        intro q hq
        cases he : m'.external with
        | nil =>
          rw [he] at hq
          simp at hq
        | cons x xs =>
          have hq' : q ∈ m'.external ++ m'.internal := by
            rw [he, hi]
            rcases List.mem_append.mp hq with h | h
            · exact absurd h (by simp)
            · rw [he] at h
              exact List.mem_append.mpr (Or.inl (List.mem_cons_of_mem x h))
          exact ih q hq'

/-- Witness for C8 at the reachable state obtained by one external send into
a fresh mailbox. -/
theorem external_internal_copies_only_w :
    ((Mailbox.new 0).send_from_external ⟨1, 0, 5⟩).copies_only = true ∧
    ((Mailbox.new 0).send_from_external ⟨1, 0, 5⟩).copy_object ⟨2, 0, 9⟩ ≠
      (⟨2, 0, 9⟩ : ObjectPointer) :=
  ⟨(external_internal_copies_only _
      (Reachable.send_ext ⟨1, 0, 5⟩ (Reachable.new 0) (by decide))).1,
    (external_internal_copies_only _
      (Reachable.send_ext ⟨1, 0, 5⟩ (Reachable.new 0) (by decide))).2
      ⟨2, 0, 9⟩ (by decide)⟩

/-- Claim C10: two external sends with distinct payloads, executed in either
serialization order (the write lock serializes the two whole operation
bodies, so a concurrent execution is one of the two orders), leave the
mailbox holding exactly one copy of each payload: the following receives
return the two payload values once each, in one order or the other, a third
receive returns none with the queues empty and uncorrupted, and no returned
pointer is one of the senders' originals. -/
theorem concurrent_sends_both_delivered (hid na : Nat) (a b : ObjectPointer)
    (order : Bool) (m2 : Mailbox) (ha : a.heap ≠ hid) (hb : b.heap ≠ hid)
    (hm2 : m2 = if order then
        ((Mailbox.mk [] [] [] hid na).send_from_external a).send_from_external b
      else
        ((Mailbox.mk [] [] [] hid na).send_from_external b).send_from_external a) :
    ((m2.receive.1.map ObjectPointer.val = some a.val ∧
      m2.receive.2.receive.1.map ObjectPointer.val = some b.val) ∨
     (m2.receive.1.map ObjectPointer.val = some b.val ∧
      m2.receive.2.receive.1.map ObjectPointer.val = some a.val)) ∧
    m2.receive.2.receive.2.receive = (none, Mailbox.mk [] [] [] hid (na + 2)) ∧
    m2.receive.1 ≠ some a ∧ m2.receive.1 ≠ some b ∧
    m2.receive.2.receive.1 ≠ some a ∧ m2.receive.2.receive.1 ≠ some b := by
  subst hm2
  cases order with
  | true =>
    rw [if_pos rfl]
    refine ⟨Or.inl ⟨rfl, rfl⟩, rfl, ?_, ?_, ?_, ?_⟩ <;>
      simp only [Mailbox.send_from_external, Mailbox.copy_object,
        Mailbox.receive, ne_eq, Option.some.injEq, List.nil_append,
        List.cons_append, List.append_nil]
    · exact fun h =>
        @copy_ne_of_heap_ne hid na a.val a ha (by simpa using h)
    · exact fun h =>
        @copy_ne_of_heap_ne hid na a.val b hb (by simpa using h)
    · exact fun h =>
        @copy_ne_of_heap_ne hid (na + 1) b.val a ha (by simpa using h)
    · exact fun h =>
        @copy_ne_of_heap_ne hid (na + 1) b.val b hb (by simpa using h)
  | false =>
    rw [if_neg (by simp)]
    refine ⟨Or.inr ⟨rfl, rfl⟩, rfl, ?_, ?_, ?_, ?_⟩ <;>
      simp only [Mailbox.send_from_external, Mailbox.copy_object,
        Mailbox.receive, ne_eq, Option.some.injEq, List.nil_append,
        List.cons_append, List.append_nil]
    · exact fun h =>
        @copy_ne_of_heap_ne hid na b.val a ha (by simpa using h)
    · exact fun h =>
        @copy_ne_of_heap_ne hid na b.val b hb (by simpa using h)
    · exact fun h =>
        @copy_ne_of_heap_ne hid (na + 1) a.val a ha (by simpa using h)
    · exact fun h =>
        @copy_ne_of_heap_ne hid (na + 1) a.val b hb (by simpa using h)

/-- Witness for C10 at hid = 0, na = 0, A = ⟨1, 0, 1⟩, B = ⟨2, 0, 2⟩, with
the serialization order B before A. -/
theorem concurrent_sends_both_delivered_w :
    (ObjectPointer.mk 1 0 1).heap ≠ 0 ∧
    (ObjectPointer.mk 2 0 2).heap ≠ 0 ∧
    (let m2 := ((Mailbox.mk [] [] [] 0 0).send_from_external
        ⟨2, 0, 2⟩).send_from_external ⟨1, 0, 1⟩
     ((m2.receive.1.map ObjectPointer.val = some (ObjectPointer.mk 1 0 1).val ∧
       m2.receive.2.receive.1.map ObjectPointer.val =
         some (ObjectPointer.mk 2 0 2).val) ∨
      (m2.receive.1.map ObjectPointer.val = some (ObjectPointer.mk 2 0 2).val ∧
       m2.receive.2.receive.1.map ObjectPointer.val =
         some (ObjectPointer.mk 1 0 1).val)) ∧
     m2.receive.2.receive.2.receive = (none, Mailbox.mk [] [] [] 0 (0 + 2)) ∧
     m2.receive.1 ≠ some ⟨1, 0, 1⟩ ∧ m2.receive.1 ≠ some ⟨2, 0, 2⟩ ∧
     m2.receive.2.receive.1 ≠ some ⟨1, 0, 1⟩ ∧
     m2.receive.2.receive.1 ≠ some ⟨2, 0, 2⟩) :=
  ⟨by decide, by decide,
    concurrent_sends_both_delivered 0 0 ⟨1, 0, 1⟩ ⟨2, 0, 2⟩ false _
      (by decide) (by decide) rfl⟩

end Inko
